import Mathlib

/-!
Verification development for the tau-retail action/scoring engine
(`verl/tools/tau_retail/_logic.py`, `verl/utils/reward_score/tau_retail.py`,
and the tool class in `verl/tools/tau_retail/find_user_id_by_name_zip.py`).

Modelling conventions (fixed once, used throughout):

* Python dicts are association lists (`List (String × _)`) in insertion
  order; lookup is first-match, exactly as a dict with unique keys.
* Python numbers that hold money are modelled as rationals `ℚ`;
  `round(x, 2)` is modelled by `round2` (round-half-to-even at two
  decimals, Python's rounding mode on exact values).
* A fallible Python computation is `Option _`: `none` models an uncaught
  exception (KeyError / TypeError / StopIteration), `some` a normal
  return.  Functions that return an error *value* return
  `Except String _` inside the `Option`.
* `sha256(str(v)).hexdigest()` in `consistent_hash` is modelled as a
  collision-free function of the canonical value: digest equality is
  canonical-value equality.  Every property proved or refuted below about
  digests is a property about the canonical values being hashed.
-/

namespace TauRetail

/-- Generic nested Python value as it occurs in the tau-retail state:
strings, ints, floats (modelled as `ℚ`), lists, and dicts with string
keys in insertion order.  The `set` branch of `to_hashable` is omitted:
no tau-retail state value contains a Python set (spec §3). -/
inductive PyVal where
  | str (s : String)
  | int (n : Int)
  | num (q : ℚ)
  | list (xs : List PyVal)
  | dict (es : List (String × PyVal))
  deriving Repr

/-- Canonical immutable form produced by `to_hashable`: Python strings,
ints, floats and (nested) tuples. -/
inductive HVal where
  | str (s : String)
  | int (n : Int)
  | num (q : ℚ)
  | tup (xs : List HVal)
  deriving Repr

mutual

/-- Boolean equality on `PyVal` (deriving cannot handle the nested lists). -/
def pbeq : PyVal → PyVal → Bool
  | .str a, .str b => a == b
  | .int a, .int b => a == b
  | .num a, .num b => decide (a = b)
  | .list xs, .list ys => pbeqL xs ys
  | .dict es, .dict fs => pbeqE es fs
  | _, _ => false

/-- Boolean equality on lists of `PyVal`. -/
def pbeqL : List PyVal → List PyVal → Bool
  | [], [] => true
  | x :: xs, y :: ys => pbeq x y && pbeqL xs ys
  | _, _ => false

/-- Boolean equality on dict entries. -/
def pbeqE : List (String × PyVal) → List (String × PyVal) → Bool
  | [], [] => true
  | (k, v) :: es, (k', v') :: fs => k == k' && pbeq v v' && pbeqE es fs
  | _, _ => false

end

mutual

def pbeq_iff : ∀ (a b : PyVal), pbeq a b = true ↔ a = b
  | .str _, .str _ => by simp [pbeq]
  | .str _, .int _ => iff_of_false (by simp [pbeq]) (fun h => nomatch h)
  | .str _, .num _ => iff_of_false (by simp [pbeq]) (fun h => nomatch h)
  | .str _, .list _ => iff_of_false (by simp [pbeq]) (fun h => nomatch h)
  | .str _, .dict _ => iff_of_false (by simp [pbeq]) (fun h => nomatch h)
  | .int _, .str _ => iff_of_false (by simp [pbeq]) (fun h => nomatch h)
  | .int _, .int _ => by simp [pbeq]
  | .int _, .num _ => iff_of_false (by simp [pbeq]) (fun h => nomatch h)
  | .int _, .list _ => iff_of_false (by simp [pbeq]) (fun h => nomatch h)
  | .int _, .dict _ => iff_of_false (by simp [pbeq]) (fun h => nomatch h)
  | .num _, .str _ => iff_of_false (by simp [pbeq]) (fun h => nomatch h)
  | .num _, .int _ => iff_of_false (by simp [pbeq]) (fun h => nomatch h)
  | .num _, .num _ => by simp [pbeq]
  | .num _, .list _ => iff_of_false (by simp [pbeq]) (fun h => nomatch h)
  | .num _, .dict _ => iff_of_false (by simp [pbeq]) (fun h => nomatch h)
  | .list _, .str _ => iff_of_false (by simp [pbeq]) (fun h => nomatch h)
  | .list _, .int _ => iff_of_false (by simp [pbeq]) (fun h => nomatch h)
  | .list _, .num _ => iff_of_false (by simp [pbeq]) (fun h => nomatch h)
  | .list xs, .list ys => by simp [pbeq, pbeqL_iff xs ys]
  | .list _, .dict _ => iff_of_false (by simp [pbeq]) (fun h => nomatch h)
  | .dict _, .str _ => iff_of_false (by simp [pbeq]) (fun h => nomatch h)
  | .dict _, .int _ => iff_of_false (by simp [pbeq]) (fun h => nomatch h)
  | .dict _, .num _ => iff_of_false (by simp [pbeq]) (fun h => nomatch h)
  | .dict _, .list _ => iff_of_false (by simp [pbeq]) (fun h => nomatch h)
  | .dict es, .dict fs => by simp [pbeq, pbeqE_iff es fs]

def pbeqL_iff : ∀ (xs ys : List PyVal), pbeqL xs ys = true ↔ xs = ys
  | [], [] => by simp [pbeqL]
  | [], _ :: _ => by simp [pbeqL]
  | _ :: _, [] => by simp [pbeqL]
  | x :: xs, y :: ys => by simp [pbeqL, pbeq_iff x y, pbeqL_iff xs ys]

def pbeqE_iff : ∀ (es fs : List (String × PyVal)), pbeqE es fs = true ↔ es = fs
  | [], [] => by simp [pbeqE]
  | [], _ :: _ => by simp [pbeqE]
  | _ :: _, [] => by simp [pbeqE]
  | (k, v) :: es, (k', v') :: fs => by
      simp [pbeqE, pbeq_iff v v', pbeqE_iff es fs, and_assoc]

end

instance : DecidableEq PyVal := fun a b => decidable_of_iff _ (pbeq_iff a b)

mutual

/-- Boolean equality on `HVal`. -/
def hbeq : HVal → HVal → Bool
  | .str a, .str b => a == b
  | .int a, .int b => a == b
  | .num a, .num b => decide (a = b)
  | .tup xs, .tup ys => hbeqL xs ys
  | _, _ => false

/-- Boolean equality on lists of `HVal`. -/
def hbeqL : List HVal → List HVal → Bool
  | [], [] => true
  | x :: xs, y :: ys => hbeq x y && hbeqL xs ys
  | _, _ => false

end

mutual

def hbeq_iff : ∀ (a b : HVal), hbeq a b = true ↔ a = b
  | .str _, .str _ => by simp [hbeq]
  | .str _, .int _ => iff_of_false (by simp [hbeq]) (fun h => nomatch h)
  | .str _, .num _ => iff_of_false (by simp [hbeq]) (fun h => nomatch h)
  | .str _, .tup _ => iff_of_false (by simp [hbeq]) (fun h => nomatch h)
  | .int _, .str _ => iff_of_false (by simp [hbeq]) (fun h => nomatch h)
  | .int _, .int _ => by simp [hbeq]
  | .int _, .num _ => iff_of_false (by simp [hbeq]) (fun h => nomatch h)
  | .int _, .tup _ => iff_of_false (by simp [hbeq]) (fun h => nomatch h)
  | .num _, .str _ => iff_of_false (by simp [hbeq]) (fun h => nomatch h)
  | .num _, .int _ => iff_of_false (by simp [hbeq]) (fun h => nomatch h)
  | .num _, .num _ => by simp [hbeq]
  | .num _, .tup _ => iff_of_false (by simp [hbeq]) (fun h => nomatch h)
  | .tup _, .str _ => iff_of_false (by simp [hbeq]) (fun h => nomatch h)
  | .tup _, .int _ => iff_of_false (by simp [hbeq]) (fun h => nomatch h)
  | .tup _, .num _ => iff_of_false (by simp [hbeq]) (fun h => nomatch h)
  | .tup xs, .tup ys => by simp [hbeq, hbeqL_iff xs ys]

def hbeqL_iff : ∀ (xs ys : List HVal), hbeqL xs ys = true ↔ xs = ys
  | [], [] => by simp [hbeqL]
  | [], _ :: _ => by simp [hbeqL]
  | _ :: _, [] => by simp [hbeqL]
  | x :: xs, y :: ys => by simp [hbeqL, hbeq_iff x y, hbeqL_iff xs ys]

end

instance : DecidableEq HVal := fun a b => decidable_of_iff _ (hbeq_iff a b)

/-- Key-ordering used by Python's `sorted(item.items())` on dict items:
dict keys are unique strings, so the sort compares keys only. -/
def keyLE (a b : String × HVal) : Prop := a.1 ≤ b.1

instance : DecidableRel keyLE := fun a b => inferInstanceAs (Decidable (a.1 ≤ b.1))

instance : IsTotal (String × HVal) keyLE := ⟨fun a b => le_total a.1 b.1⟩

instance : IsTrans (String × HVal) keyLE := ⟨fun _ _ _ h h' => le_trans h h'⟩

/-- Sorting of dict items by key (Python `sorted` is a stable sort; on
items of a dict the keys are distinct, so any stable sort by key agrees
with it). -/
def sortK (l : List (String × HVal)) : List (String × HVal) :=
  l.insertionSort keyLE

mutual

/-- Shallow embedding of `to_hashable` (reward_score/tau_retail.py):
dicts become the key-sorted tuple of `(key, to_hashable value)` pairs,
lists become position-preserving tuples, scalars pass through. -/
def to_hashable : PyVal → HVal
  | .str s => .str s
  | .int n => .int n
  | .num q => .num q
  | .list xs => .tup (toHList xs)
  | .dict es => .tup ((sortK (toHEntries es)).map (fun kv => .tup [.str kv.1, kv.2]))

/-- Canonicalization of the elements of a list, in order. -/
def toHList : List PyVal → List HVal
  | [] => []
  | x :: xs => to_hashable x :: toHList xs

/-- Canonicalization of the values of dict items, keys unchanged. -/
def toHEntries : List (String × PyVal) → List (String × HVal)
  | [] => []
  | (k, v) :: es => (k, to_hashable v) :: toHEntries es

end

/-- Shallow embedding of `consistent_hash`: the source computes
`sha256(str(value)).hexdigest()`.  SHA-256 over the textual rendering is
modelled as a collision-free encoding, so the digest is the canonical
value itself; digest equality is canonical-value equality. -/
def consistent_hash (v : HVal) : HVal := v



/-! ## Domain model (spec §3, shapes read off `_logic.py`)

`Option` on a field models a key that may be absent from the underlying
dict (for name fields it also covers a stored `None`: both make the
`.lower()` access in `_logic.find_user_id_by_name_zip` raise, and both
are normalized to `""` by the tool-layer `_norm`). -/

/-- Product variant: availability flag and price. -/
structure Variant where
  available : Bool
  price : ℚ
  deriving DecidableEq, Repr

/-- Product: mapping from variant item-id to variant. -/
structure Product where
  variants : List (String × Variant)
  deriving DecidableEq, Repr

/-- Line item of an order. -/
structure OrderItem where
  item_id : String
  product_id : String
  price : ℚ
  deriving DecidableEq, Repr

/-- Payment transaction inside an order's payment history. -/
structure Payment where
  transaction_type : String
  amount : ℚ
  payment_method_id : String
  deriving DecidableEq, Repr

/-- Order record; the four `exchange_*` fields and `cancel_reason` are
keys added by the mutating actions (absent = `none`). -/
structure Order where
  user_id : String
  status : String
  items : List OrderItem
  payment_history : List Payment
  cancel_reason : Option String
  exchange_items : Option (List String)
  exchange_new_items : Option (List String)
  exchange_payment_method_id : Option String
  exchange_price_difference : Option ℚ
  deriving DecidableEq, Repr

/-- Payment method; `balance` is stored for gift cards only (spec §3),
so it is optional and accessing it on a record without it raises. -/
structure PaymentMethod where
  source : String
  balance : Option ℚ
  deriving DecidableEq, Repr

/-- Name sub-record of a user. -/
structure UserName where
  first_name : Option String
  last_name : Option String
  deriving DecidableEq, Repr

/-- Stored zip code: the data may hold it as a string or as a number. -/
inductive ZipVal where
  | zstr (s : String)
  | znum (n : Int)
  deriving DecidableEq, Repr

/-- Address sub-record of a user. -/
structure Address where
  zip : Option ZipVal
  deriving DecidableEq, Repr

/-- User record. -/
structure User where
  name : Option UserName
  address : Option Address
  email : String
  payment_methods : List (String × PaymentMethod)
  deriving DecidableEq, Repr

/-- World state: the raw `data` dict.  A `none` field models a missing
top-level key. -/
structure State where
  users : Option (List (String × User))
  orders : Option (List (String × Order))
  products : Option (List (String × Product))
  deriving DecidableEq, Repr

/-- Decidable equality for `Except` results (not provided by core). -/
instance {α β : Type} [DecidableEq α] [DecidableEq β] : DecidableEq (Except α β) :=
  fun a b =>
    match a, b with
    | .ok x, .ok y => decidable_of_iff (x = y) (by simp)
    | .error x, .error y => decidable_of_iff (x = y) (by simp)
    | .ok _, .error _ => isFalse (fun h => nomatch h)
    | .error _, .ok _ => isFalse (fun h => nomatch h)

/-- Dict lookup: first entry with the given key (dict keys are unique). -/
def assocFind (l : List (String × α)) (k : String) : Option α :=
  (l.find? (fun kv => kv.1 == k)).map (·.2)

/-- In-place mutation of the value stored under key `k` (position and
all other entries preserved, as when Python mutates a dict value). -/
def updAssoc (l : List (String × α)) (k : String) (v : α) : List (String × α) :=
  l.map (fun kv => if kv.1 == k then (k, v) else kv)

/-- Helper `_get_users`: `data.get("users", {})`. -/
def _get_users (s : State) : List (String × User) := s.users.getD []

/-- Helper `_get_orders`: `data.get("orders", {})`. -/
def _get_orders (s : State) : List (String × Order) := s.orders.getD []

/-- Helper `_get_products`: `data.get("products", {})`. -/
def _get_products (s : State) : List (String × Product) := s.products.getD []

/-! ## String helpers used by the Python sources -/

/-- Python `str.lower()` (and `str.casefold()`, which agrees with it on
the ASCII data of this domain), modelled character-wise. -/
def pyLower (s : String) : String := String.mk (s.data.map Char.toLower)

/-- Python `str.strip()`: drop leading and trailing whitespace. -/
def pyStrip (s : String) : String :=
  String.mk (((s.data.dropWhile Char.isWhitespace).reverse.dropWhile Char.isWhitespace).reverse)

/-- Character-list version of `startswith`. -/
def chPrefixAt : List Char → List Char → Bool
  | [], _ => true
  | _ :: _, [] => false
  | a :: as, b :: bs => a == b && chPrefixAt as bs

/-- Character-list substring occurrence test. -/
def chSub (n : List Char) : List Char → Bool
  | [] => n.isEmpty
  | b :: bs => chPrefixAt n (b :: bs) || chSub n bs

/-- Python `needle in hay` on strings: substring containment. -/
def pyIn (needle hay : String) : Bool := chSub needle.data hay.data

/-- Round-half-to-even to an integer (Python's `round` on exact values). -/
def rhe (q : ℚ) : ℤ :=
  if q - ⌊q⌋ < 1 / 2 then ⌊q⌋
  else if q - ⌊q⌋ > 1 / 2 then ⌊q⌋ + 1
  else if ⌊q⌋ % 2 = 0 then ⌊q⌋ else ⌊q⌋ + 1

/-- Python `round(x, 2)`. -/
def round2 (q : ℚ) : ℚ := (rhe (q * 100) : ℚ) / 100

/-- Python `sorted` on a list of strings (lexicographic). -/
def sortedStr (l : List String) : List String :=
  l.insertionSort (fun a b => a ≤ b)

/-! ## Action library (`_logic.py`) -/

/-- Equality test `stored_zip == query_zip` as Python evaluates it in
`_logic.find_user_id_by_name_zip`: an `int` stored zip compared against
the string argument is simply `False` (no coercion, no exception). -/
def zipMatches : ZipVal → String → Bool
  | .zstr s, q => s == q
  | .znum _, _ => false

/-- Iteration of `_logic.find_user_id_by_name_zip` over the users dict.
Outer `none` models an uncaught exception: `profile["name"]` /
`["first_name"]` / `["last_name"]` on a missing or `None` field, or
`profile["address"]["zip"]` when absent.  The accesses happen in the
source's short-circuit order. -/
def findUserLoop (first_name last_name zipq : String) :
    List (String × User) → Option (Option String)
  | [] => some none
  | (user_id, profile) :: rest =>
    match profile.name with
    | none => none
    | some nm =>
      match nm.first_name with
      | none => none
      | some fn =>
        if pyLower fn = pyLower first_name then
          match nm.last_name with
          | none => none
          | some ln =>
            if pyLower ln = pyLower last_name then
              match profile.address with
              | none => none
              | some ad =>
                match ad.zip with
                | none => none
                | some zv =>
                  if zipMatches zv zipq then some (some user_id)
                  else findUserLoop first_name last_name zipq rest
            else findUserLoop first_name last_name zipq rest
        else findUserLoop first_name last_name zipq rest

/-- Embedding of `_logic.find_user_id_by_name_zip`.  Result `some none`
is the not-found return `None`; outer `none` is a raised exception. -/
def find_user_id_by_name_zip (s : State) (first_name last_name zipq : String) :
    Option (Option String) :=
  findUserLoop first_name last_name zipq (_get_users s)

/-- Embedding of `_logic.find_user_id_by_email` (case-insensitive first
match; `email` is always present in the model, so it cannot raise). -/
def find_user_id_by_email (s : State) (email : String) : Option String :=
  ((_get_users s).find? (fun kv => pyLower kv.2.email == pyLower email)).map (·.1)

/-- Embedding of `_logic.get_order_details`. -/
def get_order_details (s : State) (order_id : String) : Option Order :=
  assocFind (_get_orders s) order_id

/-- Embedding of `_logic.get_user_details`. -/
def get_user_details (s : State) (user_id : String) : Option User :=
  assocFind (_get_users s) user_id

/-- Embedding of `_logic.get_product_details`. -/
def get_product_details (s : State) (product_id : String) : Option Product :=
  assocFind (_get_products s) product_id

/-- Step 4 of `exchange_delivered_order_items`: walk the positional
pairs, locate the first order item matching the old id (`next(...)`,
whose failure would raise StopIteration — outer `none`), check the new
variant exists and is available, and accumulate the price difference
left to right. -/
def exchangeLoop (items : List OrderItem) (products : List (String × Product)) :
    ℚ → List (String × String) → Option (Except String ℚ)
  | acc, [] => some (.ok acc)
  | acc, (old_iid, new_iid) :: rest =>
    match items.find? (fun it => it.item_id == old_iid) with
    | none => none
    | some old_item =>
      let variant_map :=
        match assocFind products old_item.product_id with
        | none => ([] : List (String × Variant))
        | some p => p.variants
      match assocFind variant_map new_iid with
      | none => some (.error ("Error: new item " ++ new_iid ++ " not found or available"))
      | some var =>
        if var.available then
          exchangeLoop items products (acc + (var.price - old_item.price)) rest
        else some (.error ("Error: new item " ++ new_iid ++ " not found or available"))

/-- Embedding of `_logic.exchange_delivered_order_items`.  The result is
`none` for a raised exception, otherwise the returned
`(success-or-error, state after the call)` pair. -/
def exchange_delivered_order_items (s : State) (order_id : String)
    (item_ids new_item_ids : List String) (payment_method_id : String) :
    Option (Except String Order × State) :=
  let orders := _get_orders s
  let users := _get_users s
  let products := _get_products s
  match assocFind orders order_id with
  | none => some (.error "Error: order not found", s)
  | some order =>
    if order.status ≠ "delivered" then
      some (.error "Error: non-delivered order cannot be exchanged", s)
    else
      let original_item_ids := order.items.map (·.item_id)
      match item_ids.find? (fun iid => original_item_ids.count iid < item_ids.count iid) with
      | some iid => some (.error ("Error: " ++ iid ++ " not found"), s)
      | none =>
        if item_ids.length ≠ new_item_ids.length then
          some (.error "Error: the number of items to be exchanged should match", s)
        else
          match exchangeLoop order.items products 0 (item_ids.zip new_item_ids) with
          | none => none
          | some (.error e) => some (.error e, s)
          | some (.ok dp) =>
            let diff_price := round2 dp
            match assocFind users order.user_id with
            | none => none
            | some user =>
              match assocFind user.payment_methods payment_method_id with
              | none => some (.error "Error: payment method not found", s)
              | some pm =>
                let succeed : Option (Except String Order × State) :=
                  let order' := { order with
                    status := "exchange requested",
                    exchange_items := some (sortedStr item_ids),
                    exchange_new_items := some (sortedStr new_item_ids),
                    exchange_payment_method_id := some payment_method_id,
                    exchange_price_difference := some diff_price }
                  some (.ok order', { s with orders := some (updAssoc orders order_id order') })
                if pm.source = "gift_card" then
                  match pm.balance with
                  | none => none
                  | some b =>
                    if b < diff_price then
                      some (.error "Error: insufficient gift card balance to pay for the price difference", s)
                    else succeed
                else succeed

/-- Refund transaction synthesized by `cancel_pending_order`. -/
def mkRefund (p : Payment) : Payment :=
  { transaction_type := "refund", amount := p.amount, payment_method_id := p.payment_method_id }

/-- Refund loop of `cancel_pending_order`: for each payment whose
`payment_method_id` contains the substring `"gift_card"`, look up
`data["users"][uid]["payment_methods"][pid]` (each step can raise —
outer `none`) and set its balance to `round(balance + amount, 2)`. -/
def cancelRefunds (uid : String) :
    Option (List (String × User)) → List Payment → Option (Option (List (String × User)))
  | users, [] => some users
  | users, p :: rest =>
    if pyIn "gift_card" p.payment_method_id then
      match users with
      | none => none
      | some ul =>
        match assocFind ul uid with
        | none => none
        | some u =>
          match assocFind u.payment_methods p.payment_method_id with
          | none => none
          | some pm =>
            match pm.balance with
            | none => none
            | some b =>
              let pm' := { pm with balance := some (round2 (b + p.amount)) }
              let u' := { u with payment_methods := updAssoc u.payment_methods p.payment_method_id pm' }
              cancelRefunds uid (some (updAssoc ul uid u')) rest
    else cancelRefunds uid users rest

/-- Embedding of `_logic.cancel_pending_order`.  Note the source reads
`data["orders"]` directly (not `_get_orders`), so a state without the
`"orders"` key raises KeyError — modelled by the outer `none`. -/
def cancel_pending_order (s : State) (order_id reason : String) :
    Option (Except String Order × State) :=
  match s.orders with
  | none => none
  | some orders =>
    match assocFind orders order_id with
    | none => some (.error "Error: order not found", s)
    | some order =>
      if order.status ≠ "pending" then
        some (.error "Error: non-pending order cannot be cancelled", s)
      else if reason ≠ "no longer needed" ∧ reason ≠ "ordered by mistake" then
        some (.error "Error: invalid reason", s)
      else
        match cancelRefunds order.user_id s.users order.payment_history with
        | none => none
        | some users' =>
          let refunds := order.payment_history.map mkRefund
          let order' := { order with
            status := "cancelled",
            cancel_reason := some reason,
            payment_history := order.payment_history ++ refunds }
          some (.ok order', { s with users := users', orders := some (updAssoc orders order_id order') })

/-! ## Tool-layer `FindUserIdByNameZip.execute`
(`verl/tools/tau_retail/find_user_id_by_name_zip.py`) -/

/-- Embedding of `_norm`: `(s or "").strip().casefold()` — `None` or a
missing value becomes the empty string, then strip, then case-fold. -/
def _norm (s : Option String) : String := pyLower (pyStrip (s.getD ""))

/-- Rendering `str(addr.get("zip") or "")`: a missing zip, the empty
string and the falsy number `0` all render as `""`; a stored number is
coerced to its decimal string. -/
def zipGetStr : Option ZipVal → String
  | none => ""
  | some (.zstr s) => s
  | some (.znum n) => if n = 0 then "" else toString n

/-- Per-user matching loop of the tool's `execute`. -/
def toolFindLoop (fin lin zin : String) : List (String × User) → String
  | [] => "Error: user not found"
  | (user_id, profile) :: rest =>
    let nm := profile.name.getD ⟨none, none⟩
    let ad := profile.address.getD ⟨none⟩
    let pFirst := _norm nm.first_name
    let pLast := _norm nm.last_name
    let pZip := pyStrip (zipGetStr ad.zip)
    if pFirst == fin && pLast == lin && pZip == zin then user_id
    else toolFindLoop fin lin zin rest

/-- Embedding of `FindUserIdByNameZip.execute` (first component of its
returned tuple).  The parameters arrive from the tool schema and may be
missing (`parameters.get`), hence `Option String`. -/
def toolFindUserIdByNameZip (s : State) (first_name last_name zipq : Option String) : String :=
  match s.users with
  | none => "Error: data is not provided"
  | some ul =>
    toolFindLoop (_norm first_name) (_norm last_name) (pyStrip (zipq.getD "")) ul

/-! ## Action dispatcher (`step` in reward_score/tau_retail.py)

`ACTION_DISPATCH` maps six names — the five lookups and
`exchange_delivered_order_items` — to their functions;
`cancel_pending_order` is not in the table.  `step` resolves the name
(unknown names are silent no-ops), keeps only the keyword arguments the
target function declares, and invokes it on the state.  A missing
required keyword argument would raise TypeError at the call — modelled
by `none`; an argument of the wrong shape is likewise modelled as a
raise. -/

/-- Ground-truth action: a name plus a keyword-argument bag. -/
structure Action where
  name : String
  kwargs : List (String × PyVal)
  deriving DecidableEq, Repr

/-- Extraction of a required string keyword argument. -/
def kwStr (kwargs : List (String × PyVal)) (k : String) : Option String :=
  match assocFind kwargs k with
  | some (.str s) => some s
  | _ => none

/-- Decoding of a list of strings from a `PyVal` list. -/
def decodeStrs : List PyVal → Option (List String)
  | [] => some []
  | .str s :: xs => (decodeStrs xs).map (s :: ·)
  | _ => none

/-- Extraction of a required list-of-strings keyword argument. -/
def kwStrList (kwargs : List (String × PyVal)) (k : String) : Option (List String) :=
  match assocFind kwargs k with
  | some (.list xs) => decodeStrs xs
  | _ => none

/-- Reserved conversational no-op action name. -/
def RESPOND_ACTION_NAME : String := "respond"

/-- Embedding of `step`: dispatch one action against the state.  The
read-only lookups return a value that `step` discards, so on the state
they are no-ops; `find_user_id_by_name_zip` can additionally raise. -/
def step (a : Action) (s : State) : Option State :=
  if a.name = "find_user_id_by_name_zip" then
    match kwStr a.kwargs "first_name", kwStr a.kwargs "last_name", kwStr a.kwargs "zip" with
    | some fn, some ln, some zp => (find_user_id_by_name_zip s fn ln zp).map (fun _ => s)
    | _, _, _ => none
  else if a.name = "find_user_id_by_email" then
    match kwStr a.kwargs "email" with
    | some _ => some s
    | none => none
  else if a.name = "get_order_details" then
    match kwStr a.kwargs "order_id" with
    | some _ => some s
    | none => none
  else if a.name = "get_user_details" then
    match kwStr a.kwargs "user_id" with
    | some _ => some s
    | none => none
  else if a.name = "get_product_details" then
    match kwStr a.kwargs "product_id" with
    | some _ => some s
    | none => none
  else if a.name = "exchange_delivered_order_items" then
    match kwStr a.kwargs "order_id", kwStrList a.kwargs "item_ids",
          kwStrList a.kwargs "new_item_ids", kwStr a.kwargs "payment_method_id" with
    | some oid, some ids, some nids, some pid =>
        (exchange_delivered_order_items s oid ids nids pid).map (·.2)
    | _, _, _, _ => none
  else some s

/-- Sequential replay of actions (`for action in actions: step(...)`);
an uncaught exception aborts the whole replay. -/
def replay : List Action → State → Option State
  | [], s => some s
  | a :: rest, s =>
    match step a s with
    | none => none
    | some s' => replay rest s'

/-! ## State encoding into generic values, and the scorer -/

/-- Encoding of a boolean as Python renders it. -/
def encBool (b : Bool) : PyVal := if b then .str "True" else .str "False"

/-- Encoding of an order item. -/
def encodeItem (it : OrderItem) : PyVal :=
  .dict [("item_id", .str it.item_id), ("product_id", .str it.product_id),
         ("price", .num it.price)]

/-- Encoding of a payment transaction. -/
def encodePayment (p : Payment) : PyVal :=
  .dict [("transaction_type", .str p.transaction_type), ("amount", .num p.amount),
         ("payment_method_id", .str p.payment_method_id)]

/-- Encoding of an order; optional fields are present iff set. -/
def encodeOrder (o : Order) : PyVal :=
  .dict ([("user_id", .str o.user_id), ("status", .str o.status),
          ("items", .list (o.items.map encodeItem)),
          ("payment_history", .list (o.payment_history.map encodePayment))]
    ++ (match o.cancel_reason with | some r => [("cancel_reason", .str r)] | none => [])
    ++ (match o.exchange_items with
        | some l => [("exchange_items", .list (l.map PyVal.str))] | none => [])
    ++ (match o.exchange_new_items with
        | some l => [("exchange_new_items", .list (l.map PyVal.str))] | none => [])
    ++ (match o.exchange_payment_method_id with
        | some m => [("exchange_payment_method_id", .str m)] | none => [])
    ++ (match o.exchange_price_difference with
        | some d => [("exchange_price_difference", .num d)] | none => []))

/-- Encoding of a payment method. -/
def encodePM (pm : PaymentMethod) : PyVal :=
  .dict ([("source", .str pm.source)]
    ++ (match pm.balance with | some b => [("balance", .num b)] | none => []))

/-- Encoding of a stored zip. -/
def encodeZip : ZipVal → PyVal
  | .zstr s => .str s
  | .znum n => .int n

/-- Encoding of a user record. -/
def encodeUser (u : User) : PyVal :=
  .dict ((match u.name with
          | some nm => [("name", .dict
              ((match nm.first_name with | some f => [("first_name", PyVal.str f)] | none => [])
               ++ (match nm.last_name with | some l => [("last_name", PyVal.str l)] | none => [])))]
          | none => [])
    ++ (match u.address with
        | some ad => [("address", .dict
            (match ad.zip with | some z => [("zip", encodeZip z)] | none => []))]
        | none => [])
    ++ [("email", .str u.email),
        ("payment_methods", .dict (u.payment_methods.map (fun kv => (kv.1, encodePM kv.2))))])

/-- Encoding of a product. -/
def encodeProduct (p : Product) : PyVal :=
  .dict [("variants", .dict (p.variants.map (fun kv =>
    (kv.1, PyVal.dict [("available", encBool kv.2.available), ("price", .num kv.2.price)]))))]

/-- Encoding of the whole state dict; a missing top-level key is absent. -/
def encodeState (s : State) : PyVal :=
  .dict ((match s.users with
          | some ul => [("users", PyVal.dict (ul.map (fun kv => (kv.1, encodeUser kv.2))))]
          | none => [])
    ++ (match s.orders with
        | some ol => [("orders", PyVal.dict (ol.map (fun kv => (kv.1, encodeOrder kv.2))))]
        | none => [])
    ++ (match s.products with
        | some pl => [("products", PyVal.dict (pl.map (fun kv => (kv.1, encodeProduct kv.2))))]
        | none => []))

/-- Inner `get_data_hash` of `compute_score`: canonical digest of a
state (the defensive deep copies of the source are identities here). -/
def get_data_hash (s : State) : HVal := consistent_hash (to_hashable (encodeState s))

/-- Embedding of `compute_score` on already-parsed ground truth: hash
the observed end state, filter out `respond` actions, replay the rest
on a copy of the initial state, and compare digests.  (The JSON

decoding of a serialized ground-truth string or of string-valued kwarg
bags is external text processing that yields this parsed list.)  The
result is `none` when the replay raises. -/
def compute_score (data : State) (raw_data : State) (ground_truth : List Action) :
    Option ℚ :=
  let data_hash := get_data_hash data
  let actions := ground_truth.filter (fun a => a.name != RESPOND_ACTION_NAME)
  match replay actions raw_data with
  | none => none
  | some final => some (if data_hash = get_data_hash final then 1 else 0)

/-! ## Relations and spec-side functions used to state the claims -/

/-- Relation "w is v with the key (insertion) order of one mapping inside
it permuted": either the permuted dict itself (its entry list permuted,
keys distinct as in any dict), or the permutation happens inside one
element of a list, or inside one value of a dict. -/
inductive MapReord : PyVal → PyVal → Prop
  | here (es es' : List (String × PyVal)) (hperm : es.Perm es')
      (hnd : (es.map Prod.fst).Nodup) : MapReord (.dict es) (.dict es')
  | inList (pre suf : List PyVal) (v v' : PyVal) (h : MapReord v v') :
      MapReord (.list (pre ++ v :: suf)) (.list (pre ++ v' :: suf))
  | inDict (pre suf : List (String × PyVal)) (k : String) (v v' : PyVal) (h : MapReord v v') :
      MapReord (.dict (pre ++ (k, v) :: suf)) (.dict (pre ++ (k, v') :: suf))

/-- Relation "w is v with one ordered sequence inside it replaced by a
permutation of the same elements whose canonical forms genuinely differ
(the canonicalized element lists are different)". -/
inductive SeqReord : PyVal → PyVal → Prop
  | here (xs ys : List PyVal) (hperm : xs.Perm ys)
      (hne : xs.map to_hashable ≠ ys.map to_hashable) :
      SeqReord (.list xs) (.list ys)
  | inList (pre suf : List PyVal) (v v' : PyVal) (h : SeqReord v v') :
      SeqReord (.list (pre ++ v :: suf)) (.list (pre ++ v' :: suf))
  | inDict (pre suf : List (String × PyVal)) (k : String) (v v' : PyVal) (h : SeqReord v v') :
      SeqReord (.dict (pre ++ (k, v) :: suf)) (.dict (pre ++ (k, v') :: suf))

/-- One action-library call with its arguments (the whole library,
including `cancel_pending_order`, which the dispatcher cannot reach). -/
inductive LibCall where
  | findNameZip (first_name last_name zipq : String)
  | findEmail (email : String)
  | orderDetails (order_id : String)
  | userDetails (user_id : String)
  | productDetails (product_id : String)
  | exch (order_id : String) (item_ids new_item_ids : List String) (payment_method_id : String)
  | cancel (order_id reason : String)
  deriving DecidableEq, Repr

/-- Application of one library call to the state.  Lookups return a
value and leave the state as is (a lookup that raises also leaves the
state as is, so modelling it as completing is conservative for state
invariants); the two mutating calls thread their state. -/
def applyLib : LibCall → State → Option State
  | .findNameZip fn ln zp, s => (find_user_id_by_name_zip s fn ln zp).map (fun _ => s)
  | .findEmail _, s => some s
  | .orderDetails _, s => some s
  | .userDetails _, s => some s
  | .productDetails _, s => some s
  | .exch oid ids nids pid, s => (exchange_delivered_order_items s oid ids nids pid).map (·.2)
  | .cancel oid reason, s => (cancel_pending_order s oid reason).map (·.2)

/-- Sequential application of library calls; a raise aborts the run. -/
def runLib : List LibCall → State → Option State
  | [], s => some s
  | c :: cs, s =>
    match applyLib c s with
    | none => none
    | some s' => runLib cs s'

/-- Status of the order stored under `oid`, if any. -/
def ordStatus (s : State) (oid : String) : Option String :=
  match s.orders with
  | none => none
  | some l => (assocFind l oid).map Order.status

/-- Spec-side filtering: remove every ground-truth action named
`respond`, preserving the order of the rest. -/
def removeRespond : List Action → List Action
  | [] => []
  | a :: rest =>
    if a.name = RESPOND_ACTION_NAME then removeRespond rest
    else a :: removeRespond rest

/-- Price of the first order item whose id equals `iid` (0 if absent;
the default is never consulted under a successful exchange). -/
def firstItemPrice (items : List OrderItem) (iid : String) : ℚ :=
  ((items.find? (fun it => it.item_id == iid)).map OrderItem.price).getD 0

/-- Price of variant `nid` of the product of the first item matching
`iid` (0 if absent; never consulted under a successful exchange). -/
def variantPrice (items : List OrderItem) (products : List (String × Product))
    (iid nid : String) : ℚ :=
  match items.find? (fun it => it.item_id == iid) with
  | none => 0
  | some it =>
    match assocFind products it.product_id with
    | none => 0
    | some p =>
      match assocFind p.variants nid with
      | none => 0
      | some var => var.price

/-- Spec-side price difference: the sum over positional pairs of (new
variant price minus the price of the first order item matching the old
id). -/
def specPriceDiff (items : List OrderItem) (products : List (String × Product))
    (pairs : List (String × String)) : ℚ :=
  (pairs.map (fun pr => variantPrice items products pr.1 pr.2 - firstItemPrice items pr.1)).sum

/-- Lookup of a user in a possibly-absent users mapping. -/
def lookupUserL (users : Option (List (String × User))) (uid : String) : Option User :=
  users.bind (fun ul => assocFind ul uid)

/-- Lookup of a payment method of a user in a possibly-absent users
mapping. -/
def lookupPML (users : Option (List (String × User))) (uid pid : String) :
    Option PaymentMethod :=
  (lookupUserL users uid).bind (fun u => assocFind u.payment_methods pid)

/-- Lookup of a payment method of a user in the state. -/
def lookupPM (s : State) (uid pid : String) : Option PaymentMethod :=
  lookupPML s.users uid pid

/-- Iterated gift-card refund on a balance: one `round(b + amount, 2)`
step per payment, in order. -/
def applyRefundFold (b : Option ℚ) (ps : List Payment) : Option ℚ :=
  ps.foldl (fun acc p => acc.bind (fun x => some (round2 (x + p.amount)))) b

/-- The payments of a history that refund onto gift-card method `m`:
id contains `"gift_card"` and equals `m`. -/
def gfilter (m : String) (ps : List Payment) : List Payment :=
  ps.filter (fun p => pyIn "gift_card" p.payment_method_id && p.payment_method_id == m)

/-! ## Concrete states for counterexamples and witnesses -/

/-- State with no top-level keys at all. -/
def sEmpty : State := { users := none, orders := none, products := none }

/-- State whose three top-level mappings are present and empty. -/
def sAllEmpty : State := { users := some [], orders := some [], products := some [] }

/-- Gift-card payment method with balance 5. -/
def pm1 : PaymentMethod := { source := "gift_card", balance := some 5 }

/-- User `u1` holding `pm1` under the id `gift_card_7`. -/
def u1 : User :=
  { name := some ⟨some "Ann", some "Lee"⟩
    address := some ⟨some (ZipVal.zstr "12345")⟩
    email := "ann@example.com"
    payment_methods := [("gift_card_7", pm1)] }

/-- Pending order of `u1`, paid 10 via the gift card. -/
def ord1 : Order :=
  { user_id := "u1"
    status := "pending"
    items := [⟨"i1", "p1", 10⟩]
    payment_history := [⟨"payment", 10, "gift_card_7"⟩]
    cancel_reason := none
    exchange_items := none
    exchange_new_items := none
    exchange_payment_method_id := none
    exchange_price_difference := none }

/-- State with the single pending order `#W1`. -/
def s0 : State :=
  { users := some [("u1", u1)], orders := some [("#W1", ord1)], products := some [] }

/-- The order `#W1` after a successful cancellation. -/
def ord1c : Order :=
  { ord1 with
    status := "cancelled"
    cancel_reason := some "no longer needed"
    payment_history := [⟨"payment", 10, "gift_card_7"⟩, ⟨"refund", 10, "gift_card_7"⟩] }

/-- The state `s0` after a successful cancellation of `#W1`. -/
def s0c : State :=
  { users := some [("u1", { u1 with payment_methods :=
      [("gift_card_7", { source := "gift_card", balance := some 15 })] })]
    orders := some [("#W1", ord1c)]
    products := some [] }

/-- User whose zip is stored as the number 12345. -/
def uZ : User := { u1 with address := some ⟨some (ZipVal.znum 12345)⟩ }

/-- State holding only `uZ`. -/
def sZ : State := { users := some [("u1", uZ)], orders := some [], products := some [] }

/-- User whose stored name field is `None` (or missing). -/
def uN : User := { u1 with name := none }

/-- State holding only `uN`. -/
def sN : State := { users := some [("u1", uN)], orders := some [], products := some [] }

/-- Delivered order of `u1`: one item `i1` (product `p1`) bought at 20. -/
def ord2 : Order :=
  { user_id := "u1"
    status := "delivered"
    items := [⟨"i1", "p1", 20⟩]
    payment_history := [⟨"payment", 20, "gift_card_7"⟩]
    cancel_reason := none
    exchange_items := none
    exchange_new_items := none
    exchange_payment_method_id := none
    exchange_price_difference := none }

/-- Product `p1` with the available variant `i2` priced 15. -/
def prod1 : Product :=
  { variants := [("i1", { available := true, price := 20 }),
                 ("i2", { available := true, price := 15 })] }

/-- State with the delivered order `#W2` and product `p1`. -/
def sE : State :=
  { users := some [("u1", u1)], orders := some [("#W2", ord2)],
    products := some [("p1", prod1)] }

/-- The order `#W2` after the successful exchange `i1 → i2`. -/
def ord2x : Order :=
  { ord2 with
    status := "exchange requested"
    exchange_items := some ["i1"]
    exchange_new_items := some ["i2"]
    exchange_payment_method_id := some "gift_card_7"
    exchange_price_difference := some (-5) }

/-- The state `sE` after the successful exchange on `#W2`. -/
def sEx : State := { sE with orders := some [("#W2", ord2x)] }

/-- Pending order paid via a method whose id lacks the `"gift_card"`
substring although its `source` field says `gift_card`. -/
def ordH : Order :=
  { ord1 with payment_history := [⟨"payment", 10, "house_credit_9"⟩] }

/-- User holding the oddly-labelled method `house_credit_9`. -/
def uH : User :=
  { u1 with payment_methods := [("house_credit_9", { source := "gift_card", balance := some 5 })] }

/-- State for the substring-versus-source scenario of the refund test. -/
def sH : State :=
  { users := some [("u1", uH)], orders := some [("#W1", ordH)], products := some [] }

/-- The order `ordH` after cancellation (refund recorded, no balance
applied anywhere). -/
def ordHc : Order :=
  { ordH with
    status := "cancelled"
    cancel_reason := some "no longer needed"
    payment_history := [⟨"payment", 10, "house_credit_9"⟩, ⟨"refund", 10, "house_credit_9"⟩] }

/-- The state `sH` after cancellation of `#W1`. -/
def sHc : State := { sH with orders := some [("#W1", ordHc)] }

/-! ## Support lemmas -/

theorem toHList_eq_map (xs : List PyVal) : toHList xs = xs.map to_hashable := by
  induction xs with
  | nil => rfl
  | cons x xs ih => simp [toHList, ih]

theorem toHEntries_eq_map (es : List (String × PyVal)) :
    toHEntries es = es.map (fun kv => (kv.1, to_hashable kv.2)) := by
  induction es with
  | nil => rfl
  | cons kv es ih => cases kv; simp [toHEntries, ih]

theorem assocFind_cons {α : Type} (x : String × α) (xs : List (String × α)) (k : String) :
    assocFind (x :: xs) k = if x.1 = k then some x.2 else assocFind xs k := by
  by_cases h : x.1 = k
  · simp [assocFind, List.find?_cons_of_pos, h]
  · simp [assocFind, List.find?_cons_of_neg, h]

theorem updAssoc_cons {α : Type} (x : String × α) (xs : List (String × α)) (k : String)
    (v : α) :
    updAssoc (x :: xs) k v = (if x.1 = k then (k, v) else x) :: updAssoc xs k v := by
  by_cases h : x.1 = k <;> simp [updAssoc, h]

theorem assocFind_updAssoc {α : Type} (l : List (String × α)) (k k' : String) (v : α) :
    assocFind (updAssoc l k v) k' =
      if k = k' then (assocFind l k).map (fun _ => v) else assocFind l k' := by
  induction l with
  | nil => by_cases h : k = k' <;> simp [updAssoc, assocFind, h]
  | cons x xs ih =>
    rw [updAssoc_cons]
    by_cases hx : x.1 = k
    · by_cases hk : k = k'
      · subst hk
        simp [assocFind_cons, hx, ih]
      · simp [assocFind_cons, hx, hk, ih]
    · by_cases hk : k = k'
      · subst hk
        simp [assocFind_cons, hx, ih]
      · by_cases hxk : x.1 = k'
        · rw [if_neg hx, assocFind_cons, if_pos hxk, if_neg hk, assocFind_cons, if_pos hxk]
        · simp [assocFind_cons, hx, hk, hxk, ih]

theorem sortK_perm (l : List (String × HVal)) : (sortK l).Perm l :=
  List.perm_insertionSort _ l

theorem sortK_sorted (l : List (String × HVal)) : (sortK l).Sorted keyLE :=
  List.sorted_insertionSort _ l

theorem eq_of_perm_sorted_keys (l₁ l₂ : List (String × HVal)) (hp : l₁.Perm l₂)
    (hs₁ : l₁.Sorted keyLE) (hs₂ : l₂.Sorted keyLE) (hnd : (l₁.map Prod.fst).Nodup) :
    l₁ = l₂ := by
  induction l₁ generalizing l₂ with
  | nil => exact (hp.symm.eq_nil).symm
  | cons a t₁ ih =>
    cases l₂ with
    | nil => exact absurd hp.eq_nil (by simp)
    | cons b t₂ =>
      rw [List.map_cons] at hnd
      have hnd' := List.nodup_cons.mp hnd
      have hab : a = b := by
        have ha : a ∈ b :: t₂ := hp.subset (List.mem_cons_self a t₁)
        have hb : b ∈ a :: t₁ := hp.symm.subset (List.mem_cons_self b t₂)
        rcases List.mem_cons.mp ha with h | ha'
        · exact h
        rcases List.mem_cons.mp hb with h | hb'
        · exact h.symm
        have h₁ : keyLE a b := (List.sorted_cons.mp hs₁).1 b hb'
        have h₂ : keyLE b a := (List.sorted_cons.mp hs₂).1 a ha'
        have hkey : a.1 = b.1 := le_antisymm h₁ h₂
        have hmem : b.1 ∈ t₁.map Prod.fst := List.mem_map_of_mem Prod.fst hb'
        rw [← hkey] at hmem
        exact absurd hmem hnd'.1
      subst hab
      have htail := hp.cons_inv
      rw [ih t₂ htail (List.sorted_cons.mp hs₁).2 (List.sorted_cons.mp hs₂).2 hnd'.2]

theorem sortK_congr (l₁ l₂ : List (String × HVal)) (hp : l₁.Perm l₂)
    (hnd : (l₁.map Prod.fst).Nodup) : sortK l₁ = sortK l₂ :=
  eq_of_perm_sorted_keys _ _
    ((sortK_perm l₁).trans (hp.trans (sortK_perm l₂).symm))
    (sortK_sorted l₁) (sortK_sorted l₂)
    (((sortK_perm l₁).map Prod.fst).nodup_iff.mpr hnd)

theorem cons_perm_cons_eq {α : Type} [DecidableEq α] {a b : α} {S : List α}
    (h : (a :: S).Perm (b :: S)) : a = b := by
  by_contra hne
  have hm : ((a :: S : List α) : Multiset α) = ((b :: S : List α) : Multiset α) :=
    Multiset.coe_eq_coe.mpr h
  rw [← Multiset.cons_coe, ← Multiset.cons_coe] at hm
  have hc := congrArg (Multiset.count a) hm
  rw [Multiset.count_cons_self, Multiset.count_cons_of_ne hne] at hc
  omega

theorem pairEnc_inj {kv kv' : String × HVal}
    (h : HVal.tup [HVal.str kv.1, kv.2] = HVal.tup [HVal.str kv'.1, kv'.2]) : kv = kv' := by
  cases kv; cases kv'; simp_all

theorem toHashable_mapReord {v w : PyVal} (h : MapReord v w) :
    to_hashable v = to_hashable w := by
  induction h with
  | here es es' hperm hnd =>
    simp only [to_hashable]
    have hmap : (toHEntries es).Perm (toHEntries es') := by
      rw [toHEntries_eq_map, toHEntries_eq_map]; exact hperm.map _
    have hnd' : ((toHEntries es).map Prod.fst).Nodup := by
      rw [toHEntries_eq_map]
      simpa [List.map_map, Function.comp_def] using hnd
    rw [sortK_congr _ _ hmap hnd']
  | inList pre suf v v' hrec ih =>
    simp only [to_hashable, toHList_eq_map, List.map_append, List.map_cons, ih]
  | inDict pre suf k v v' hrec ih =>
    simp only [to_hashable, toHEntries_eq_map, List.map_append, List.map_cons, ih]

theorem toHashable_seqReord {v w : PyVal} (h : SeqReord v w) :
    to_hashable v ≠ to_hashable w := by
  induction h with
  | here xs ys hperm hne =>
    intro he
    simp only [to_hashable, toHList_eq_map, HVal.tup.injEq] at he
    exact hne he
  | inList pre suf v v' hrec ih =>
    intro he
    simp only [to_hashable, toHList_eq_map, List.map_append, List.map_cons,
      HVal.tup.injEq] at he
    have := (List.append_right_inj _).mp he
    exact ih (by injection this)
  | inDict pre suf k v v' hrec ih =>
    intro he
    simp only [to_hashable, toHEntries_eq_map, HVal.tup.injEq] at he
    have hsort : sortK ((pre ++ (k, v) :: suf).map (fun kv => (kv.1, to_hashable kv.2)))
        = sortK ((pre ++ (k, v') :: suf).map (fun kv => (kv.1, to_hashable kv.2))) := by
      have hinj : Function.Injective
          (fun kv : String × HVal => HVal.tup [HVal.str kv.1, kv.2]) :=
        fun _ _ hh => pairEnc_inj hh
      exact List.map_injective_iff.mpr hinj he
    set P := pre.map (fun kv => (kv.1, to_hashable kv.2)) with hP
    set S := suf.map (fun kv => (kv.1, to_hashable kv.2)) with hS
    have hA : (pre ++ (k, v) :: suf).map (fun kv => (kv.1, to_hashable kv.2))
        = P ++ (k, to_hashable v) :: S := by simp [hP, hS]
    have hB : (pre ++ (k, v') :: suf).map (fun kv => (kv.1, to_hashable kv.2))
        = P ++ (k, to_hashable v') :: S := by simp [hP, hS]
    rw [hA, hB] at hsort
    have hperm : (P ++ (k, to_hashable v) :: S).Perm (P ++ (k, to_hashable v') :: S) :=
      (sortK_perm _).symm.trans (hsort ▸ sortK_perm _)
    have hpair := cons_perm_cons_eq ((List.perm_append_left_iff P).mp hperm)
    exact ih (congrArg Prod.snd hpair)

/-! ## Claim C3 -/

/-- C3 counterexample: the two-element list holding the empty dict and
the empty list, reordered, is a genuinely different permutation of the
same elements (the value is a different sequence), yet `to_hashable`
sends both to the same canonical form — `to_hashable` maps `{}` and
`[]` alike to the empty tuple — so the digests coincide, refuting the
claim that such a reordering always changes the digest. -/
theorem c3_seq_reorder_counterexample :
    PyVal.list [.dict [], .list []] ≠ PyVal.list [.list [], .dict []]
    ∧ ([PyVal.dict [], PyVal.list []]).Perm [PyVal.list [], PyVal.dict []]
    ∧ consistent_hash (to_hashable (PyVal.list [.dict [], .list []]))
      = consistent_hash (to_hashable (PyVal.list [.list [], .dict []])) :=
  ⟨by with_unfolding_all decide, by with_unfolding_all decide, by with_unfolding_all decide⟩

/-- C3 (amended): permuting the key (insertion) order of any mapping
inside a value never changes the canonical form (hence never the
digest); replacing an ordered sequence inside it with a permutation of
the same elements whose canonicalized element lists differ always
changes the canonical form (hence, with the collision-free digest, the
digest). -/
theorem c3_canonicalization_order (v w : PyVal) :
    (MapReord v w → consistent_hash (to_hashable v) = consistent_hash (to_hashable w))
    ∧ (SeqReord v w → consistent_hash (to_hashable v) ≠ consistent_hash (to_hashable w)) :=
  ⟨fun h => congrArg consistent_hash (toHashable_mapReord h),
   fun h hc => toHashable_seqReord h hc⟩

/-- C3 witness: a concrete dict reordering with equal digests and a
concrete list reordering with distinct digests. -/
theorem c3_canonicalization_order_witness :
    consistent_hash (to_hashable (PyVal.dict [("b", .int 1), ("a", .int 2)]))
      = consistent_hash (to_hashable (PyVal.dict [("a", .int 2), ("b", .int 1)]))
    ∧ consistent_hash (to_hashable (PyVal.list [.int 1, .int 2]))
      ≠ consistent_hash (to_hashable (PyVal.list [.int 2, .int 1])) :=
  ⟨(c3_canonicalization_order _ _).1 (MapReord.here _ _ (by with_unfolding_all decide) (by with_unfolding_all decide)),
   (c3_canonicalization_order _ _).2 (SeqReord.here _ _ (by with_unfolding_all decide) (by with_unfolding_all decide))⟩

/-! ## Characterization of the two mutating actions -/

theorem exchange_err_state {s s' : State} {oid pmid m : String} {ids nids : List String}
    (h : exchange_delivered_order_items s oid ids nids pmid = some (.error m, s')) :
    s' = s := by
  simp only [exchange_delivered_order_items] at h
  repeat' split at h
  all_goals simp_all

theorem cancel_err_state {s s' : State} {oid reason m : String}
    (h : cancel_pending_order s oid reason = some (.error m, s')) : s' = s := by
  simp only [cancel_pending_order] at h
  repeat' split at h
  all_goals simp_all

theorem exchangeLoop_ok_sum (items : List OrderItem) (products : List (String × Product)) :
    ∀ (pairs : List (String × String)) (acc d : ℚ),
      exchangeLoop items products acc pairs = some (.ok d) →
      d = acc + specPriceDiff items products pairs := by
  intro pairs
  induction pairs with
  | nil =>
    intro acc d h
    simp [exchangeLoop] at h
    simp [specPriceDiff, h]
  | cons pr rest ih =>
    intro acc d h
    obtain ⟨old, neu⟩ := pr
    simp only [exchangeLoop] at h
    cases hfind : items.find? (fun it => it.item_id == old) with
    | none => simp [hfind] at h
    | some old_item =>
      simp only [hfind] at h
      cases hprod : assocFind products old_item.product_id with
      | none =>
        simp only [hprod] at h
        cases hvar : assocFind ([] : List (String × Variant)) neu with
        | none => simp [hvar] at h
        | some var => simp [assocFind] at hvar
      | some p =>
        simp only [hprod] at h
        cases hvar : assocFind p.variants neu with
        | none => simp [hvar] at h
        | some var =>
          simp only [hvar] at h
          by_cases hav : var.available = true
          · rw [if_pos hav] at h
            have hd := ih _ _ h
            subst hd
            simp [specPriceDiff, variantPrice, firstItemPrice, hfind, hprod, hvar]
            ring
          · rw [if_neg hav] at h
            simp at h

theorem exchange_ok_char {s s' : State} {oid pmid : String} {ids nids : List String}
    {o : Order}
    (h : exchange_delivered_order_items s oid ids nids pmid = some (.ok o, s')) :
    ∃ ord d,
      assocFind (_get_orders s) oid = some ord
      ∧ ord.status = "delivered"
      ∧ ids.length = nids.length
      ∧ exchangeLoop ord.items (_get_products s) 0 (ids.zip nids) = some (.ok d)
      ∧ o = { ord with
          status := "exchange requested"
          exchange_items := some (sortedStr ids)
          exchange_new_items := some (sortedStr nids)
          exchange_payment_method_id := some pmid
          exchange_price_difference := some (round2 d) }
      ∧ s' = { s with orders := some (updAssoc (_get_orders s) oid o) } := by
  simp only [exchange_delivered_order_items] at h
  cases hord : assocFind (_get_orders s) oid with
  | none => simp [hord] at h
  | some ord =>
    simp only [hord] at h
    by_cases hst : ord.status = "delivered"
    · rw [if_neg (by simp [hst])] at h
      cases hdup : ids.find?
          (fun iid => (ord.items.map (fun it => it.item_id)).count iid < ids.count iid) with
      | some iid => simp [hdup] at h
      | none =>
        simp only [hdup] at h
        by_cases hlen : ids.length = nids.length
        · rw [if_neg (by simpa using hlen)] at h
          cases hloop : exchangeLoop ord.items (_get_products s) 0 (ids.zip nids) with
          | none => simp [hloop] at h
          | some res =>
            cases res with
            | error e => simp [hloop] at h
            | ok dp =>
              simp only [hloop] at h
              cases huser : assocFind (_get_users s) ord.user_id with
              | none => simp [huser] at h
              | some user =>
                simp only [huser] at h
                cases hpm : assocFind user.payment_methods pmid with
                | none => simp [hpm] at h
                | some pm =>
                  simp only [hpm] at h
                  by_cases hsrc : pm.source = "gift_card"
                  · rw [if_pos hsrc] at h
                    cases hbal : pm.balance with
                    | none => simp [hbal] at h
                    | some b =>
                      simp only [hbal] at h
                      by_cases hlt : b < round2 dp
                      · rw [if_pos hlt] at h; simp at h
                      · rw [if_neg hlt] at h
                        simp only [Option.some.injEq, Prod.mk.injEq,
                          Except.ok.injEq] at h
                        exact ⟨ord, dp, rfl, hst, hlen, hloop, h.1.symm,
                          by rw [← h.1]; exact h.2.symm⟩
                  · rw [if_neg hsrc] at h
                    simp only [Option.some.injEq, Prod.mk.injEq, Except.ok.injEq] at h
                    exact ⟨ord, dp, rfl, hst, hlen, hloop, h.1.symm,
                      by rw [← h.1]; exact h.2.symm⟩
        · rw [if_pos (by simpa using hlen)] at h; simp at h
    · rw [if_pos hst] at h; simp at h

theorem cancel_ok_char {s s' : State} {oid reason : String} {o : Order}
    (h : cancel_pending_order s oid reason = some (.ok o, s')) :
    ∃ orders ord users',
      s.orders = some orders
      ∧ assocFind orders oid = some ord
      ∧ ord.status = "pending"
      ∧ (reason = "no longer needed" ∨ reason = "ordered by mistake")
      ∧ cancelRefunds ord.user_id s.users ord.payment_history = some users'
      ∧ o = { ord with
          status := "cancelled"
          cancel_reason := some reason
          payment_history := ord.payment_history ++ ord.payment_history.map mkRefund }
      ∧ s' = { s with users := users', orders := some (updAssoc orders oid o) } := by
  simp only [cancel_pending_order] at h
  cases hords : s.orders with
  | none => simp [hords] at h
  | some orders =>
    simp only [hords] at h
    cases hord : assocFind orders oid with
    | none => simp [hord] at h
    | some ord =>
      simp only [hord] at h
      by_cases hst : ord.status = "pending"
      · rw [if_neg (by simp [hst])] at h
        by_cases hr : reason = "no longer needed" ∨ reason = "ordered by mistake"
        · rw [if_neg (by
            rcases hr with hr | hr <;> simp [hr])] at h
          cases href : cancelRefunds ord.user_id s.users ord.payment_history with
          | none => simp [href] at h
          | some users' =>
            simp only [href] at h
            simp only [Option.some.injEq, Prod.mk.injEq, Except.ok.injEq] at h
            exact ⟨orders, ord, users', rfl, hord, hst, hr, href, h.1.symm,
              by rw [← h.1]; exact h.2.symm⟩
        · rw [if_pos (by
            constructor <;> intro hx <;> exact hr (by simp [hx]))] at h
          simp at h
      · rw [if_pos hst] at h; simp at h

/-! ## Claim C4 -/

/-- C4: every failure return of `exchange_delivered_order_items` and
every failure return of `cancel_pending_order` leaves the entire state
unchanged — no order field, payment history, or balance is modified on
any error path. -/
theorem c4_error_paths_preserve_state (s s' : State) (oid pmid reason m : String)
    (ids nids : List String) :
    (exchange_delivered_order_items s oid ids nids pmid = some (.error m, s') → s' = s)
    ∧ (cancel_pending_order s oid reason = some (.error m, s') → s' = s) :=
  ⟨exchange_err_state, cancel_err_state⟩

/-- C4 witness: a rejected reason and an exchange on a pending order
both fail and return the untouched state `s0`. -/
theorem c4_error_paths_preserve_state_witness :
    cancel_pending_order s0 "#W1" "changed my mind" = some (.error "Error: invalid reason", s0)
    ∧ exchange_delivered_order_items s0 "#W1" [] [] "gift_card_7"
        = some (.error "Error: non-delivered order cannot be exchanged", s0)
    ∧ s0 = s0 :=
  ⟨by with_unfolding_all decide, by with_unfolding_all decide,
   (c4_error_paths_preserve_state s0 s0 "#W1" "gift_card_7" "changed my mind"
      "Error: invalid reason" [] []).2 (by with_unfolding_all decide)⟩

/-! ## Claim C5 -/

/-- C5: a successful exchange sets the order's status to
`exchange requested`, records the lexicographically sorted old and new
item-id lists, the payment method id, and — as
`exchange_price_difference` — the rounded sum over positional pairs of
(new variant price minus the price of the first order item matching the
old id); the original item entries (their `price` included) and the
payment history are left as they were, and the state change is exactly
the in-place update of this one order. -/
theorem c5_exchange_success_contract (s s' : State) (oid pmid : String)
    (ids nids : List String) (o ord : Order)
    (hord : assocFind (_get_orders s) oid = some ord)
    (h : exchange_delivered_order_items s oid ids nids pmid = some (.ok o, s')) :
    o.status = "exchange requested"
    ∧ o.exchange_items = some (sortedStr ids)
    ∧ o.exchange_new_items = some (sortedStr nids)
    ∧ o.exchange_payment_method_id = some pmid
    ∧ o.exchange_price_difference
        = some (round2 (specPriceDiff ord.items (_get_products s) (ids.zip nids)))
    ∧ o.items = ord.items
    ∧ o.payment_history = ord.payment_history
    ∧ s' = { s with orders := some (updAssoc (_get_orders s) oid o) } := by
  obtain ⟨ord', d, hord', hst, hlen, hloop, ho, hs⟩ := exchange_ok_char h
  rw [hord] at hord'
  injection hord' with he
  subst he
  have hd := exchangeLoop_ok_sum ord.items (_get_products s) (ids.zip nids) 0 d hloop
  rw [zero_add] at hd
  subst hd
  subst ho
  subst hs
  exact ⟨rfl, rfl, rfl, rfl, rfl, rfl, rfl, rfl⟩

/-- C5 witness: exchanging item `i1` (bought at 20) for the available
variant `i2` (priced 15) on the delivered order `#W2` succeeds and
records the rounded price difference −5. -/
theorem c5_exchange_success_contract_witness :
    exchange_delivered_order_items sE "#W2" ["i1"] ["i2"] "gift_card_7"
      = some (.ok ord2x, sEx)
    ∧ ord2x.exchange_price_difference
        = some (round2 (specPriceDiff ord2.items (_get_products sE) (["i1"].zip ["i2"])))
    ∧ ord2x.items = ord2.items :=
  ⟨by with_unfolding_all decide,
   (c5_exchange_success_contract sE sEx "#W2" "gift_card_7" ["i1"] ["i2"] ord2x ord2
      (by with_unfolding_all decide) (by with_unfolding_all decide)).2.2.2.2.1,
   (c5_exchange_success_contract sE sEx "#W2" "gift_card_7" ["i1"] ["i2"] ord2x ord2
      (by with_unfolding_all decide) (by with_unfolding_all decide)).2.2.2.2.2.1⟩

/-! ## Refund-loop invariants (cancel) -/

theorem cancelRefunds_nogift (uid : String) :
    ∀ (ps : List Payment) (usersOpt : Option (List (String × User))),
      (∀ p ∈ ps, pyIn "gift_card" p.payment_method_id = false) →
      cancelRefunds uid usersOpt ps = some usersOpt
  | [], usersOpt, _ => by simp [cancelRefunds]
  | p :: rest, usersOpt, hng => by
      have hp := hng p (List.mem_cons_self p rest)
      simp only [cancelRefunds]
      rw [if_neg (by simp [hp])]
      exact cancelRefunds_nogift uid rest usersOpt
        (fun q hq => hng q (List.mem_cons_of_mem p hq))

theorem cancelRefunds_char (uid : String) :
    ∀ (ps : List Payment) (usersOpt users' : Option (List (String × User))),
      cancelRefunds uid usersOpt ps = some users' →
      (∀ uid', uid' ≠ uid → lookupUserL users' uid' = lookupUserL usersOpt uid')
      ∧ (∀ m, lookupPML users' uid m
          = (lookupPML usersOpt uid m).map
              (fun pm => { pm with balance := applyRefundFold pm.balance (gfilter m ps) }))
  | [], usersOpt, users', h => by
      simp [cancelRefunds] at h
      subst h
      refine ⟨fun _ _ => rfl, fun m => ?_⟩
      cases hq : lookupPML usersOpt uid m with
      | none => simp [hq, gfilter, applyRefundFold]
      | some pm => simp [hq, gfilter, applyRefundFold]
  | p :: rest, usersOpt, users', h => by
      by_cases hg : pyIn "gift_card" p.payment_method_id = true
      · simp only [cancelRefunds] at h
        rw [if_pos hg] at h
        cases usersOpt with
        | none => simp at h
        | some ul =>
          simp only at h
          cases hu : assocFind ul uid with
          | none => simp [hu] at h
          | some u =>
            simp only [hu] at h
            cases hpm : assocFind u.payment_methods p.payment_method_id with
            | none => simp [hpm] at h
            | some pm =>
              simp only [hpm] at h
              cases hb : pm.balance with
              | none => simp [hb] at h
              | some b =>
                simp only [hb] at h
                obtain ⟨ih1, ih2⟩ := cancelRefunds_char uid rest _ users' h
                constructor
                · intro uid' hne
                  rw [ih1 uid' hne]
                  simp only [lookupUserL, Option.some_bind]
                  rw [assocFind_updAssoc, if_neg (fun hh => hne hh.symm)]
                · intro m
                  rw [ih2 m]
                  by_cases hm : p.payment_method_id = m
                  · subst hm
                    have hL : lookupPML (some (updAssoc ul uid { u with payment_methods := updAssoc u.payment_methods p.payment_method_id { pm with balance := some (round2 (b + p.amount)) } })) uid p.payment_method_id = some { pm with balance := some (round2 (b + p.amount)) } := by
                      simp [lookupPML, lookupUserL, assocFind_updAssoc, hu, hpm]
                    rw [hL]
                    have hR : lookupPML (some ul) uid p.payment_method_id = some pm := by
                      simp [lookupPML, lookupUserL, hu, hpm]
                    rw [hR]
                    have hgf : gfilter p.payment_method_id (p :: rest)
                        = p :: gfilter p.payment_method_id rest := by
                      simp [gfilter, List.filter_cons, hg]
                    rw [hgf]
                    simp [applyRefundFold, hb]
                  · have hL : lookupPML (some (updAssoc ul uid { u with payment_methods := updAssoc u.payment_methods p.payment_method_id { pm with balance := some (round2 (b + p.amount)) } })) uid m = assocFind u.payment_methods m := by
                      simp [lookupPML, lookupUserL, assocFind_updAssoc, hu, hm]
                    rw [hL]
                    have hR : lookupPML (some ul) uid m = assocFind u.payment_methods m := by
                      simp [lookupPML, lookupUserL, hu]
                    rw [hR]
                    have hgf : gfilter m (p :: rest) = gfilter m rest := by
                      simp [gfilter, List.filter_cons, hm]
                    rw [hgf]
      · simp only [cancelRefunds] at h
        rw [if_neg hg] at h
        obtain ⟨ih1, ih2⟩ := cancelRefunds_char uid rest usersOpt users' h
        refine ⟨ih1, fun m => ?_⟩
        rw [ih2 m]
        have hg' : pyIn "gift_card" p.payment_method_id = false := by
          cases hx : pyIn "gift_card" p.payment_method_id
          · rfl
          · exact absurd hx hg
        have hgf : gfilter m (p :: rest) = gfilter m rest := by
          simp [gfilter, List.filter_cons, hg']
        rw [hgf]

/-! ## Claim C6 -/

/-- C6: a successful cancellation sets the status to `cancelled`,
records the reason, appends exactly one refund transaction (type
`refund`, same amount, same payment-method id) per original payment
entry, leaves every other user untouched, and updates each payment
method's balance by one `round(balance + amount, 2)` step per
gift-card-indicating payment that references it — methods referenced by
no such payment (in particular all non-gift-card refunds) keep their
balance. -/
theorem c6_cancel_success_contract (s s' : State) (oid reason : String) (o ord : Order)
    (ol : List (String × Order))
    (hol : s.orders = some ol) (hord : assocFind ol oid = some ord)
    (h : cancel_pending_order s oid reason = some (.ok o, s')) :
    o.status = "cancelled"
    ∧ o.cancel_reason = some reason
    ∧ o.payment_history = ord.payment_history ++ ord.payment_history.map mkRefund
    ∧ s'.orders = some (updAssoc ol oid o)
    ∧ (∀ uid', uid' ≠ ord.user_id → lookupUserL s'.users uid' = lookupUserL s.users uid')
    ∧ (∀ m, lookupPML s'.users ord.user_id m
        = (lookupPML s.users ord.user_id m).map
            (fun pm => { pm with balance := applyRefundFold pm.balance (gfilter m ord.payment_history) })) := by
  obtain ⟨ol', ord', users', hol', hord', hst, hr, href, ho, hs⟩ := cancel_ok_char h
  rw [hol] at hol'
  injection hol' with he
  subst he
  rw [hord] at hord'
  injection hord' with he2
  subst he2
  subst ho
  subst hs
  obtain ⟨h1, h2⟩ := cancelRefunds_char ord.user_id ord.payment_history s.users users' href
  exact ⟨rfl, rfl, rfl, rfl, h1, h2⟩

/-- C6 witness: cancelling `#W1` on `s0` (one gift-card payment of 10
on a card with balance 5) yields the expected refunded order and the
balance 15 = round(5 + 10, 2). -/
theorem c6_cancel_success_contract_witness :
    cancel_pending_order s0 "#W1" "no longer needed" = some (.ok ord1c, s0c)
    ∧ ord1c.status = "cancelled"
    ∧ lookupPML s0c.users "u1" "gift_card_7"
        = some { source := "gift_card", balance := some 15 } := by
  have hc : cancel_pending_order s0 "#W1" "no longer needed" = some (.ok ord1c, s0c) := by
    with_unfolding_all decide
  have h := c6_cancel_success_contract s0 s0c "#W1" "no longer needed" ord1c ord1
    [("#W1", ord1)] rfl (by with_unfolding_all decide) hc
  have h6 : lookupPML s0c.users "u1" "gift_card_7"
      = (lookupPML s0.users "u1" "gift_card_7").map
          (fun pm => { pm with balance := applyRefundFold pm.balance (gfilter "gift_card_7" ord1.payment_history) }) :=
    h.2.2.2.2.2 "gift_card_7"
  refine ⟨hc, h.1, ?_⟩
  rw [h6]
  with_unfolding_all decide

/-! ## Claim C10 -/

/-- C10: whether a refund is applied immediately to a balance is
decided by the substring test `"gift_card" in payment_method_id`, not
by the method's `source` field: if no payment id of the order contains
the substring, a successful cancellation changes no stored user data at
all (though the refund transactions are still appended) — whatever the
`source` fields say; and a payment whose id does contain the substring
gets its method's balance bumped to `round(balance + amount, 2)` with
no condition on `source`. -/
theorem c10_gift_card_substring_test (s s' : State) (oid reason : String) (o ord : Order)
    (ol : List (String × Order))
    (hol : s.orders = some ol) (hord : assocFind ol oid = some ord)
    (h : cancel_pending_order s oid reason = some (.ok o, s')) :
    ((∀ p ∈ ord.payment_history, pyIn "gift_card" p.payment_method_id = false) →
      s'.users = s.users
      ∧ o.payment_history = ord.payment_history ++ ord.payment_history.map mkRefund)
    ∧ (∀ p pm b, ord.payment_history = [p] →
        pyIn "gift_card" p.payment_method_id = true →
        lookupPML s.users ord.user_id p.payment_method_id = some pm →
        pm.balance = some b →
        lookupPML s'.users ord.user_id p.payment_method_id
          = some { pm with balance := some (round2 (b + p.amount)) }) := by
  obtain ⟨ol', ord', users', hol', hord', hst, hr, href, ho, hs⟩ := cancel_ok_char h
  rw [hol] at hol'
  injection hol' with he
  subst he
  rw [hord] at hord'
  injection hord' with he2
  subst he2
  constructor
  · intro hng
    have hsame := cancelRefunds_nogift ord.user_id ord.payment_history s.users hng
    rw [hsame] at href
    injection href with he3
    subst he3
    subst hs
    exact ⟨rfl, by rw [ho]⟩
  · intro p pm b hone hg hpm hb
    obtain ⟨-, h2⟩ := cancelRefunds_char ord.user_id ord.payment_history s.users users' href
    have h6 := h2 p.payment_method_id
    rw [hpm] at h6
    rw [hone] at h6
    have hgf : gfilter p.payment_method_id [p] = [p] := by
      simp [gfilter, List.filter_cons, hg]
    rw [hgf] at h6
    subst hs
    show lookupPML users' ord.user_id p.payment_method_id = _
    rw [h6]
    simp [applyRefundFold, hb]

/-- C10 witness: the pending order `#W1` of `sH` is paid via
`house_credit_9`, whose `source` field *is* `"gift_card"` but whose id
lacks the substring — cancellation succeeds and leaves all user data
(balances included) unchanged; and on `s0` the single payment id
`gift_card_7` contains the substring, so its balance is bumped to 15. -/
theorem c10_gift_card_substring_test_witness :
    cancel_pending_order sH "#W1" "no longer needed" = some (.ok ordHc, sHc)
    ∧ sHc.users = sH.users
    ∧ lookupPML s0c.users "u1" "gift_card_7"
        = some { source := "gift_card", balance := some (round2 (5 + 10)) } := by
  have hcH : cancel_pending_order sH "#W1" "no longer needed" = some (.ok ordHc, sHc) := by
    with_unfolding_all decide
  have hH := c10_gift_card_substring_test sH sHc "#W1" "no longer needed" ordHc ordH
    [("#W1", ordH)] rfl (by with_unfolding_all decide) hcH
  have hc0 : cancel_pending_order s0 "#W1" "no longer needed" = some (.ok ord1c, s0c) := by
    with_unfolding_all decide
  have h0 := c10_gift_card_substring_test s0 s0c "#W1" "no longer needed" ord1c ord1
    [("#W1", ord1)] rfl (by with_unfolding_all decide) hc0
  refine ⟨hcH, (hH.1 (by with_unfolding_all decide)).1, ?_⟩
  have := h0.2 ⟨"payment", 10, "gift_card_7"⟩ pm1 5 (by with_unfolding_all decide)
    (by with_unfolding_all decide) (by with_unfolding_all decide)
    (by with_unfolding_all decide)
  rw [show (5 : ℚ) + 10 = (5 : ℚ) + Payment.amount ⟨"payment", 10, "gift_card_7"⟩ from rfl]
  exact this

/-! ## Claim C7 -/

/-- C7 evaluation at the failing inputs: on `sZ`, whose only user
matches the query except that the zip is *stored as the number* 12345,
the core library `find_user_id_by_name_zip` finds no user (Python
`12345 == "12345"` is `False`; no coercion happens), while the
tool-layer `FindUserIdByNameZip.execute` — which implements the
claimed normalization — returns `u1`; and on `sN`, whose user record
stores no name, the library function raises (modelled `none`) instead
of returning the not-found signal, while the tool returns its
not-found message. -/
theorem c7_name_zip_normalization_divergence :
    find_user_id_by_name_zip sZ "Ann" "Lee" "12345" = some none
    ∧ toolFindUserIdByNameZip sZ (some "Ann") (some "Lee") (some "12345") = "u1"
    ∧ find_user_id_by_name_zip sN "Ann" "Lee" "12345" = none
    ∧ toolFindUserIdByNameZip sN (some "Ann") (some "Lee") (some "12345")
        = "Error: user not found" :=
  ⟨by with_unfolding_all decide, by with_unfolding_all decide,
   by with_unfolding_all decide, by with_unfolding_all decide⟩

/-! ## Claim C8 -/

/-- C8 evaluation at the failing input: on a state without the
`"orders"` key, `cancel_pending_order` raises KeyError (modelled
`none`) instead of returning the order-not-found failure it returns
when the key is present and empty; the operations that go through the
`_get_*` accessors (exchange and the lookups) do treat every missing
top-level key as empty and return their not-found results. -/
theorem c8_missing_orders_key_raises :
    cancel_pending_order sEmpty "#W1" "no longer needed" = none
    ∧ cancel_pending_order sAllEmpty "#W1" "no longer needed"
        = some (.error "Error: order not found", sAllEmpty)
    ∧ exchange_delivered_order_items sEmpty "#W1" [] [] "gift_card_7"
        = some (.error "Error: order not found", sEmpty)
    ∧ get_order_details sEmpty "#W1" = none
    ∧ get_user_details sEmpty "u1" = none
    ∧ get_product_details sEmpty "p1" = none
    ∧ find_user_id_by_name_zip sEmpty "Ann" "Lee" "12345" = some none
    ∧ find_user_id_by_email sEmpty "ann@example.com" = none :=
  ⟨by with_unfolding_all decide, by with_unfolding_all decide,
   by with_unfolding_all decide, by with_unfolding_all decide,
   by with_unfolding_all decide, by with_unfolding_all decide,
   by with_unfolding_all decide, by with_unfolding_all decide⟩

/-! ## Claim C9 -/

theorem ordStatus_some {s : State} {ol : List (String × Order)}
    (hso : s.orders = some ol) (oid : String) :
    ordStatus s oid = (assocFind ol oid).map Order.status := by
  unfold ordStatus
  rw [hso]

theorem applyLib_status_preserved {c : LibCall} {s s' : State} {oid st : String}
    (h : applyLib c s = some s') (hst : ordStatus s oid = some st)
    (hnp : st ≠ "pending") (hnd : st ≠ "delivered") : ordStatus s' oid = some st := by
  cases c with
  | findNameZip fn ln zp =>
    simp only [applyLib] at h
    cases hf : find_user_id_by_name_zip s fn ln zp with
    | none => rw [hf] at h; simp at h
    | some r =>
      rw [hf] at h
      simp at h
      subst h
      exact hst
  | findEmail em =>
    simp only [applyLib] at h
    injection h with h
    subst h
    exact hst
  | orderDetails oid2 =>
    simp only [applyLib] at h
    injection h with h
    subst h
    exact hst
  | userDetails uid2 =>
    simp only [applyLib] at h
    injection h with h
    subst h
    exact hst
  | productDetails pid2 =>
    simp only [applyLib] at h
    injection h with h
    subst h
    exact hst
  | exch oid2 ids nids pmid =>
    simp only [applyLib] at h
    cases hx : exchange_delivered_order_items s oid2 ids nids pmid with
    | none => rw [hx] at h; simp at h
    | some pr =>
      rw [hx] at h
      obtain ⟨r, s2⟩ := pr
      simp at h
      subst h
      cases r with
      | error m =>
        have he := exchange_err_state hx
        subst he
        exact hst
      | ok o =>
        obtain ⟨ord, d, hordx, hstd, -, -, -, hs2⟩ := exchange_ok_char hx
        subst hs2
        cases hso : s.orders with
        | none => simp [ordStatus, hso] at hst
        | some ol =>
          rw [ordStatus_some hso oid] at hst
          have hgo : _get_orders s = ol := by simp [_get_orders, hso]
          show (assocFind (updAssoc (_get_orders s) oid2 o) oid).map Order.status = some st
          rw [hgo]
          rw [hgo] at hordx
          by_cases he : oid2 = oid
          · subst he
            rw [hordx] at hst
            simp at hst
            exact absurd (hst.symm.trans hstd) hnd
          · rw [assocFind_updAssoc, if_neg he]
            exact hst
  | cancel oid2 reason =>
    simp only [applyLib] at h
    cases hx : cancel_pending_order s oid2 reason with
    | none => rw [hx] at h; simp at h
    | some pr =>
      rw [hx] at h
      obtain ⟨r, s2⟩ := pr
      simp at h
      subst h
      cases r with
      | error m =>
        have he := cancel_err_state hx
        subst he
        exact hst
      | ok o =>
        obtain ⟨ol, ord, users', hol, hordc, hstp, -, -, -, hs2⟩ := cancel_ok_char hx
        subst hs2
        rw [ordStatus_some hol oid] at hst
        show (assocFind (updAssoc ol oid2 o) oid).map Order.status = some st
        by_cases he : oid2 = oid
        · subst he
          rw [hordc] at hst
          simp at hst
          exact absurd (hst.symm.trans hstp) hnp
        · rw [assocFind_updAssoc, if_neg he]
          exact hst

/-- C9: under any sequence of action-library applications that
completes, an order whose status is `cancelled` or `exchange requested`
keeps that status forever — no in-scope action reverses these
transitions; and re-invoking `cancel_pending_order` (resp.
`exchange_delivered_order_items`) right after its own success hits the
status guard, returning the guard failure with the state unchanged. -/
theorem c9_one_way_status_transitions :
    (∀ (calls : List LibCall) (s s' : State) (oid st : String),
        runLib calls s = some s' → ordStatus s oid = some st →
        (st = "cancelled" ∨ st = "exchange requested") → ordStatus s' oid = some st)
    ∧ (∀ (s s' : State) (oid r r' : String) (o : Order),
        cancel_pending_order s oid r = some (.ok o, s') →
        cancel_pending_order s' oid r'
          = some (.error "Error: non-pending order cannot be cancelled", s'))
    ∧ (∀ (s s' : State) (oid pmid pmid' : String) (ids nids ids' nids' : List String)
        (o : Order),
        exchange_delivered_order_items s oid ids nids pmid = some (.ok o, s') →
        exchange_delivered_order_items s' oid ids' nids' pmid'
          = some (.error "Error: non-delivered order cannot be exchanged", s')) := by
  refine ⟨?_, ?_, ?_⟩
  · intro calls
    induction calls with
    | nil =>
      intro s s' oid st h hst _
      simp [runLib] at h
      subst h
      exact hst
    | cons c cs ih =>
      intro s s' oid st h hst hmem
      simp only [runLib] at h
      cases ha : applyLib c s with
      | none => rw [ha] at h; simp at h
      | some s1 =>
        rw [ha] at h
        refine ih s1 s' oid st h ?_ hmem
        exact applyLib_status_preserved ha hst
          (by rcases hmem with hh | hh <;> simp [hh])
          (by rcases hmem with hh | hh <;> simp [hh])
  · intro s s' oid r r' o h
    obtain ⟨ol, ord, users', hol, hord, hstp, -, -, ho, hs⟩ := cancel_ok_char h
    subst hs
    simp only [cancel_pending_order]
    have hfind : assocFind (updAssoc ol oid o) oid = some o := by
      rw [assocFind_updAssoc]
      simp [hord]
    simp only [hfind]
    rw [if_pos (by rw [ho]; simp)]
  · intro s s' oid pmid pmid' ids nids ids' nids' o h
    obtain ⟨ord, d, hord, hstd, -, -, ho, hs⟩ := exchange_ok_char h
    subst hs
    simp only [exchange_delivered_order_items]
    have hgo : _get_orders { s with orders := some (updAssoc (_get_orders s) oid o) }
        = updAssoc (_get_orders s) oid o := by
      simp [_get_orders]
    rw [hgo]
    have hfind : assocFind (updAssoc (_get_orders s) oid o) oid = some o := by
      rw [assocFind_updAssoc]
      simp [hord]
    simp only [hfind]
    rw [if_pos (by rw [ho]; simp)]

/-- C9 witness: a cancelled order survives a further cancel call with
status `cancelled`; the second cancel after the successful one on `s0`
fails the status guard without changing the state; and so does a second
exchange after the successful one on `sE`. -/
theorem c9_one_way_status_transitions_witness :
    ordStatus s0c "#W1" = some "cancelled"
    ∧ cancel_pending_order s0c "#W1" "ordered by mistake"
        = some (.error "Error: non-pending order cannot be cancelled", s0c)
    ∧ exchange_delivered_order_items sEx "#W2" ["i1"] ["i2"] "gift_card_7"
        = some (.error "Error: non-delivered order cannot be exchanged", sEx) := by
  refine ⟨?_, ?_, ?_⟩
  · exact c9_one_way_status_transitions.1 [LibCall.cancel "#W1" "no longer needed"]
      s0c s0c "#W1" "cancelled" (by with_unfolding_all decide)
      (by with_unfolding_all decide) (Or.inl rfl)
  · exact c9_one_way_status_transitions.2.1 s0 s0c "#W1" "no longer needed"
      "ordered by mistake" ord1c (by with_unfolding_all decide)
  · exact c9_one_way_status_transitions.2.2 sE sEx "#W2" "gift_card_7" "gift_card_7"
      ["i1"] ["i2"] ["i1"] ["i2"] ord2x (by with_unfolding_all decide)

/-! ## Claim C2 -/

theorem removeRespond_eq_filter (l : List Action) :
    removeRespond l = l.filter (fun a => a.name != RESPOND_ACTION_NAME) := by
  induction l with
  | nil => rfl
  | cons a rest ih =>
    by_cases h : a.name = RESPOND_ACTION_NAME <;>
      simp [removeRespond, List.filter_cons, h, ih]

/-- C2: `compute_score` drops exactly the ground-truth actions named
`respond` (order preserved), replays the remaining actions sequentially
on the (deep-copied) initial state, and — whenever the replay completes
— returns 1 exactly when the canonical digests of the replayed state
and the observed end state agree and 0 otherwise; every returned reward
is 0 or 1. -/
theorem c2_compute_score_contract (data raw_data : State) (gt : List Action) :
    compute_score data raw_data gt =
      (replay (removeRespond gt) raw_data).map
        (fun final => if get_data_hash data = get_data_hash final then (1 : ℚ) else 0)
    ∧ (∀ r, compute_score data raw_data gt = some r → r = 0 ∨ r = 1) := by
  constructor
  · unfold compute_score
    rw [removeRespond_eq_filter]
    cases hrep : replay (gt.filter fun a => a.name != RESPOND_ACTION_NAME) raw_data <;>
      simp [hrep]
  · intro r hr
    unfold compute_score at hr
    cases hrep : replay (gt.filter fun a => a.name != RESPOND_ACTION_NAME) raw_data with
    | none => simp [hrep] at hr
    | some final =>
      simp only [hrep] at hr
      by_cases hh : get_data_hash data = get_data_hash final
      · right; simp [hh] at hr; linarith
      · left; simp [hh] at hr; linarith

/-- C2 witness: on the empty state with a lone `respond` ground-truth
action the score is 1, and 1 is one of the two allowed rewards. -/
theorem c2_compute_score_contract_witness :
    compute_score sEmpty sEmpty [⟨"respond", []⟩] = some 1 ∧ ((1 : ℚ) = 0 ∨ (1 : ℚ) = 1) :=
  ⟨by with_unfolding_all decide,
   (c2_compute_score_contract sEmpty sEmpty [⟨"respond", []⟩]).2 1 (by with_unfolding_all decide)⟩

/-! ## Claim C1 -/

theorem decodeStrs_map (l : List String) : decodeStrs (l.map PyVal.str) = some l := by
  induction l with
  | nil => rfl
  | cons s rest ih => simp [decodeStrs, ih]

/-- C1 (amended): the dispatcher resolves each of the six names in
`ACTION_DISPATCH` — the five lookups and `exchange_delivered_order_items`
— to its library function and invokes it with the argument bag filtered
to the declared parameters (extra entries such as `note` are dropped;
a missing required argument raises); `cancel_pending_order` is *not* in
the table, so dispatching it with any argument bag is a silent no-op
that leaves the state unchanged. -/
theorem c1_dispatch_resolution (s : State) (oid fn ln zp em uid pid pmid : String)
    (ids nids : List String) (junk : PyVal) (kwargs : List (String × PyVal)) :
    step ⟨"cancel_pending_order", kwargs⟩ s = some s
    ∧ step ⟨"exchange_delivered_order_items",
        [("order_id", .str oid), ("item_ids", .list (ids.map PyVal.str)),
         ("new_item_ids", .list (nids.map PyVal.str)), ("payment_method_id", .str pmid),
         ("note", junk)]⟩ s
      = (exchange_delivered_order_items s oid ids nids pmid).map (·.2)
    ∧ step ⟨"find_user_id_by_name_zip",
        [("first_name", .str fn), ("last_name", .str ln), ("zip", .str zp),
         ("note", junk)]⟩ s
      = (find_user_id_by_name_zip s fn ln zp).map (fun _ => s)
    ∧ (step ⟨"find_user_id_by_email", [("email", .str em), ("note", junk)]⟩ s = some s
       ∧ step ⟨"find_user_id_by_email", [("note", junk)]⟩ s = none)
    ∧ (step ⟨"get_order_details", [("order_id", .str oid), ("note", junk)]⟩ s = some s
       ∧ step ⟨"get_order_details", [("note", junk)]⟩ s = none)
    ∧ (step ⟨"get_user_details", [("user_id", .str uid), ("note", junk)]⟩ s = some s
       ∧ step ⟨"get_user_details", [("note", junk)]⟩ s = none)
    ∧ (step ⟨"get_product_details", [("product_id", .str pid), ("note", junk)]⟩ s = some s
       ∧ step ⟨"get_product_details", [("note", junk)]⟩ s = none) := by
  refine ⟨?_, ?_, ?_, ⟨?_, ?_⟩, ⟨?_, ?_⟩, ⟨?_, ?_⟩, ⟨?_, ?_⟩⟩ <;>
    simp [step, kwStr, kwStrList, assocFind_cons, assocFind, decodeStrs_map]

/-- C1 counterexample: dispatching the action named
`cancel_pending_order` on a state with a pending, cancellable order is
a silent no-op — the order stays `pending` — although the library
function `cancel_pending_order` itself succeeds on that very state and
sets the status to `cancelled`; so the dispatcher does not resolve
every Action Library name. -/
theorem c1_cancel_not_dispatched :
    step ⟨"cancel_pending_order",
      [("order_id", .str "#W1"), ("reason", .str "no longer needed")]⟩ s0 = some s0
    ∧ ordStatus s0 "#W1" = some "pending"
    ∧ (cancel_pending_order s0 "#W1" "no longer needed").map
        (fun p => ordStatus p.2 "#W1") = some (some "cancelled") :=
  ⟨by with_unfolding_all decide, by with_unfolding_all decide, by with_unfolding_all decide⟩

end TauRetail
